import Mathlib

/-!
Verification of the SoC composition/elaboration engine of the EOS-S3 USB
standalone-core generator (`litex_gen.py`).

The embedding follows the source: the static pin catalog `_io`, the
`Platform` wrapper (request / add-group / build), the clock-reset generator
`_CRG`, and the composition pipeline of `LiteXCore.__init__` (CRG, base SoC
initialisation, USB controller registration, optional wishbone master
attachment, interrupt-pin export).  Behaviour that lives in the external
collaborator libraries (migen / litex / valentyusb) rather than in the
repository source is modelled from the specification's contracts for those
collaborators; each such definition carries a doc comment saying so.

Wires are identified by name: requesting a pin group yields a wire bundle
named after the group, and a combinational assignment is a (target, source)
pair of wire names.
-/

namespace LitexGen

/-- A named, indexed bundle of signals; each signal is a (sub-name, width)
pair, with a plain `Pins(1)` signal written `("", 1)`. Mirrors the tuples of
the `_io` list in the source. -/
structure PinGroup where
  name : String
  index : Nat
  signals : List (String × Nat)
deriving DecidableEq

/-- Error kinds of the composition pipeline (spec §7). -/
inductive GenError where
  | UnknownPin
  | DuplicatePin
  | DuplicateClockDomain
  | FabricFull
  | UnsupportedBus
  | DuplicateIrqExport
  | ArtifactWriteFailure
deriving DecidableEq

/-- The static pin catalog `_io` of the source (lines 26-36): `sys_clk`,
`sys_rst`, the `usb` group with sub-signals `d_p`, `d_n`, `pullup`, and the
two clock inputs `clk12`, `clk48`, all single-bit. -/
def pinCatalog : List PinGroup :=
  [ PinGroup.mk "sys_clk" 0 [("", 1)],
    PinGroup.mk "sys_rst" 0 [("", 1)],
    PinGroup.mk "usb" 0 [("d_p", 1), ("d_n", 1), ("pullup", 1)],
    PinGroup.mk "clk12" 0 [("", 1)],
    PinGroup.mk "clk48" 0 [("", 1)] ]

/-- A platform owns the set of pin groups: catalog plus dynamically
registered extensions. -/
structure Platform where
  pins : List PinGroup
deriving DecidableEq

/-- Whether a pin group with the given (name, index) identity is present. -/
def Platform.hasIdent (p : Platform) (n : String) (i : Nat) : Bool :=
  p.pins.any fun g => g.name == n && g.index == i

/-- Modelled from the spec: §4.1 `request(name, index) → PinGroup` fails with
`UnknownPin` if no group with that identity exists (the lookup itself lives
in the migen/litex `GenericPlatform`, outside `src/`).  The returned wire
bundle is identified by the group name. -/
def Platform.request (p : Platform) (n : String) (i : Nat) : Except GenError String :=
  if p.hasIdent n i then Except.ok n else Except.error GenError.UnknownPin

/-- Modelled from the spec: §4.1 `add_group` fails with `DuplicatePin` if the
(name, index) identity is already present, otherwise registers the group,
making it requestable afterward (the registration itself lives in the
migen/litex `GenericPlatform.add_extension`, outside `src/`). -/
def Platform.add_group (p : Platform) (g : PinGroup) : Except GenError Platform :=
  if p.hasIdent g.name g.index then Except.error GenError.DuplicatePin
  else Except.ok (Platform.mk (p.pins ++ [g]))

/-- State produced by `_CRG.__init__` (source lines 50-67): the pins it
requested, in request order, and the combinational (target, source)
assignments wiring the three clock domains. -/
structure CRGState where
  requested : List String
  comb : List (String × String)
deriving DecidableEq

/-- `_CRG.__init__` (source lines 50-67): request `sys_rst`, `sys_clk`,
`clk12`, `clk48`, then combinationally drive the `sys`, `usb_12` and
`usb_48` domains: both `sys` and `usb_12` from (`sys_rst`, `clk12`), and
`usb_48` from (`sys_rst`, `clk48`).  The requested `sys_clk` wire is never
assigned. -/
def crgInit (p : Platform) : Except GenError CRGState := do
  let sys_rst ← p.request "sys_rst" 0
  let sys_clk ← p.request "sys_clk" 0
  let clk12 ← p.request "clk12" 0
  let clk48 ← p.request "clk48" 0
  Except.ok (CRGState.mk [sys_rst, sys_clk, clk12, clk48]
    [ ("cd_sys.rst", sys_rst),
      ("cd_sys.clk", clk12),
      ("cd_usb_12.rst", sys_rst),
      ("cd_usb_12.clk", clk12),
      ("cd_usb_48.rst", sys_rst),
      ("cd_usb_48.clk", clk48) ])

/-- The clock wire a domain is driven by, read off the CRG assignments. -/
def CRGState.clkOf (c : CRGState) (domain : String) : Option String :=
  c.comb.lookup (domain ++ ".clk")

/-- The reset wire a domain is driven by, read off the CRG assignments. -/
def CRGState.rstOf (c : CRGState) (domain : String) : Option String :=
  c.comb.lookup (domain ++ ".rst")

/-- Direction of a wishbone interface signal, from the point of view of the
internal master endpoint: `mtos` signals are driven by the master,
`stom` signals are driven towards the master. -/
inductive WbDir where
  | mtos
  | stom
deriving DecidableEq

/-- Modelled from the spec: the BusMaster wire set (§3, "an endpoint with
address/data/control wires") with the standard wishbone master signal
directions and widths; `wishbone.Interface` lives in litex, outside `src/`.
Each entry is (signal name, width, direction). -/
def wishboneLayout : List (String × Nat × WbDir) :=
  [ ("adr", 30, WbDir.mtos),
    ("dat_w", 32, WbDir.mtos),
    ("dat_r", 32, WbDir.stom),
    ("sel", 4, WbDir.mtos),
    ("cyc", 1, WbDir.mtos),
    ("stb", 1, WbDir.mtos),
    ("ack", 1, WbDir.stom),
    ("we", 1, WbDir.mtos),
    ("cti", 3, WbDir.mtos),
    ("bte", 2, WbDir.mtos),
    ("err", 1, WbDir.stom) ]

/-- Modelled from the spec: §4.3 — `get_ios` derives an I/O pin-group view of
the master's wires, registered on the platform under the given name
(`wishbone.Interface.get_ios` lives in litex, outside `src/`). -/
def wbGetIos (n : String) : PinGroup :=
  PinGroup.mk n 0 (wishboneLayout.map fun s => (s.1, s.2.1))

/-- Modelled from the spec: §4.3 — `connect_to_pads` wires the master's
signals to the pads; in "slave" mode the pad drives each master-to-slave
signal and the core drives each slave-to-master pad, the external-facing
inverse of "master" mode (`Record.connect_to_pads` lives in litex, outside
`src/`).  Signal wires are prefixed `sigPre`, pad wires `padPre`; each
assignment is (target, source). -/
def connectToPads (sigPre padPre mode : String) : List (String × String) :=
  wishboneLayout.map fun s =>
    match s.2.2, mode == "master" with
    | WbDir.mtos, true => (padPre ++ s.1, sigPre ++ s.1)
    | WbDir.mtos, false => (sigPre ++ s.1, padPre ++ s.1)
    | WbDir.stom, true => (sigPre ++ s.1, padPre ++ s.1)
    | WbDir.stom, false => (padPre ++ s.1, sigPre ++ s.1)

/-- A pad is an input pin of the emitted core when the external world drives
it, i.e. when it occurs as the source of some assignment. -/
def isInputPin (assigns : List (String × String)) (pad : String) : Bool :=
  assigns.any fun a => a.2 == pad

/-- A pad is an output pin of the emitted core when the core drives it,
i.e. when it occurs as the target of some assignment. -/
def isOutputPin (assigns : List (String × String)) (pad : String) : Bool :=
  assigns.any fun a => a.1 == pad

/-- Modelled from the spec: §4.3/§7 — the base SoC services accept the bus
kind `"wishbone"` and reject anything else, in particular `"axi"`, with
`UnsupportedBus`; this validation lives in litex `SoCMini.__init__`, outside
`src/`. -/
def socMiniCheckBus (bus : String) : Except GenError Unit :=
  if bus == "wishbone" then Except.ok () else Except.error GenError.UnsupportedBus

/-- The configuration surface of `LiteXCore.__init__` (source lines 73-77)
together with the kwargs forwarded by `soc_argdict` (lines 110-118). -/
structure Config where
  sys_clk_freq : Nat
  with_pwm : Bool
  with_gpio : Bool
  gpio_width : Nat
  with_spi_master : Bool
  spi_master_data_width : Nat
  spi_master_clk_freq : Nat
  bus : String
  csr_data_width : Nat
  csr_address_width : Nat
  csr_paging : Nat
deriving DecidableEq

/-- Result of a successful composition: the final platform, the CRG state,
the SoC bookkeeping (clock frequency and CSR parameters stored by the base
SoC services, the `mem_map["csr"]` base address from source line 72, the
registered CSR names), the bus masters registered with the fabric, and the
wishbone / IRQ combinational wiring with the exported IRQ pins in export
order. -/
structure SoCResult where
  platform : Platform
  crg : CRGState
  clk_freq : Nat
  csr_data_width : Nat
  csr_address_width : Nat
  csr_paging : Nat
  mem_map_csr : Nat
  csrs : List String
  busMasters : List String
  wbComb : List (String × String)
  irqComb : List (String × String)
  irqPins : List String
deriving DecidableEq

/-- The wishbone-master attachment (source lines 94-99): when the configured
bus is `"wishbone"`, build a `wishbone.Interface`, add it as a bus master,
register its I/O view on the platform as group `"wb"`, request it back and
connect the master's signals to the pads in `"slave"` mode.  Internal master
wires are prefixed `wb_bus.`, pad wires `wb.`.  On failure the error is
paired with the platform state at the point of failure. -/
def wbAttach (p : Platform) (bus : String) :
    Except (GenError × Platform) (Platform × List String × List (String × String)) :=
  if bus == "wishbone" then
    match Platform.add_group p (wbGetIos "wb") with
    | Except.error e => Except.error (e, p)
    | Except.ok p1 =>
      match Platform.request p1 "wb" 0 with
      | Except.error e => Except.error (e, p1)
      | Except.ok _ => Except.ok (p1, ["wb_bus"], connectToPads "wb_bus." "wb." "slave")
  else Except.ok (p, [], [])

/-- The IRQ export loop (source lines 102-106) applied to an
already-ordered list of source names: for each name register a single-bit
pin group `"irq_" + name`, request it back, and wire it combinationally to
the owning submodule's `ev.irq` wire.  Returns the final platform, the
wiring and the exported pin names in export order; on failure the error is
paired with the platform state at the point of failure. -/
def exportIRQs : Platform → List String →
    Except (GenError × Platform) (Platform × List (String × String) × List String)
  | p, [] => Except.ok (p, [], [])
  | p, n :: rest =>
    match Platform.add_group p (PinGroup.mk ("irq_" ++ n) 0 [("", 1)]) with
    | Except.error e => Except.error (e, p)
    | Except.ok p1 =>
      match Platform.request p1 ("irq_" ++ n) 0 with
      | Except.error e => Except.error (e, p1)
      | Except.ok pin =>
        match exportIRQs p1 rest with
        | Except.error ep => Except.error ep
        | Except.ok (p2, comb, pins) =>
          Except.ok (p2, (pin, n ++ ".ev.irq") :: comb, pin :: pins)

/-- The composition pipeline of `LiteXCore.__init__` (source lines 73-106),
in source order: build the platform from the static catalog, run the CRG,
initialise the base SoC services (which validate the bus kind and record
`mem_map["csr"] = 0` from line 72), request the USB pins and register the
USB controller under CSR name `"usb"`, attach the optional wishbone master,
and export the IRQ pins over the registry sorted by source name
(`sorted(self.irq.locs.items())`, line 102).  `irqRegistry` lists the
interrupt source names in registration order.  On failure the error carries
the platform state at the point of failure; composition is all-or-nothing. -/
def composeCore (cfg : Config) (irqRegistry : List String) :
    Except (GenError × Platform) SoCResult :=
  match crgInit (Platform.mk pinCatalog) with
  | Except.error e => Except.error (e, Platform.mk pinCatalog)
  | Except.ok crg =>
  match socMiniCheckBus cfg.bus with
  | Except.error e => Except.error (e, Platform.mk pinCatalog)
  | Except.ok _ =>
  match Platform.request (Platform.mk pinCatalog) "usb" 0 with
  | Except.error e => Except.error (e, Platform.mk pinCatalog)
  | Except.ok _ =>
  match wbAttach (Platform.mk pinCatalog) cfg.bus with
  | Except.error ep => Except.error ep
  | Except.ok (p1, masters, wbComb) =>
  match exportIRQs p1 (List.insertionSort (fun a b => a ≤ b) irqRegistry) with
  | Except.error ep => Except.error ep
  | Except.ok (p2, irqComb, irqPins) =>
  Except.ok (SoCResult.mk p2 crg cfg.sys_clk_freq cfg.csr_data_width
    cfg.csr_address_width cfg.csr_paging 0 ["usb"] masters wbComb irqComb irqPins)

/-- An abstract filesystem: known directories, the current working
directory, and the written files as (absolute path, content) pairs. -/
structure FS where
  dirs : List String
  cwd : String
  files : List (String × String)
deriving DecidableEq

/-- `os.makedirs(d, exist_ok=True)` (source line 45): create the directory,
succeeding unchanged when it already exists. -/
def makedirs (fs : FS) (d : String) : FS :=
  if d ∈ fs.dirs then fs else FS.mk (fs.dirs ++ [d]) fs.cwd fs.files

/-- `os.chdir(d)` (source line 46). -/
def chdir (fs : FS) (d : String) : FS :=
  FS.mk fs.dirs d fs.files

/-- Writing a file under a name relative to the current working directory
(source line 48 writes `"litex_core.v"` after the chdir); returns the new
filesystem and the absolute path written. -/
def writeRel (fs : FS) (n content : String) : FS × String :=
  (FS.mk fs.dirs fs.cwd (fs.files ++ [(fs.cwd ++ "/" ++ n, content)]),
   fs.cwd ++ "/" ++ n)

/-- `Platform.build` (source lines 44-48): create the build directory if
absent, change the working directory to it, and write the emitted
structural artifact under the fixed name `litex_core.v`. -/
def platformBuild (fs : FS) (build_dir content : String) : FS × String :=
  writeRel (chdir (makedirs fs build_dir) build_dir) "litex_core.v" content

/-- A deterministic rendering of the composed SoC as the emitted structural
artifact text: the pin groups, all combinational assignments, and the SoC
bookkeeping, serialised in a fixed order. -/
def render (r : SoCResult) : String :=
  String.intercalate ";"
    (r.platform.pins.map fun g =>
      g.name ++ "#" ++ toString g.index ++ ":" ++
        String.intercalate "," (g.signals.map fun s => s.1 ++ "/" ++ toString s.2)) ++
  "|" ++ String.intercalate ";" (r.crg.comb.map fun a => a.1 ++ "=" ++ a.2) ++
  "|" ++ String.intercalate ";" (r.wbComb.map fun a => a.1 ++ "=" ++ a.2) ++
  "|" ++ String.intercalate ";" (r.irqComb.map fun a => a.1 ++ "=" ++ a.2) ++
  "|" ++ String.intercalate ";" r.irqPins ++
  "|" ++ String.intercalate ";" r.csrs ++
  "|" ++ String.intercalate ";" r.busMasters ++
  "|" ++ toString r.mem_map_csr ++ "|" ++ toString r.clk_freq ++
  "|" ++ toString r.csr_data_width ++ "|" ++ toString r.csr_address_width ++
  "|" ++ toString r.csr_paging

/-- `main` (source lines 120-136): compose the SoC, then build into the
output directory; if composition fails no artifact is produced and the
filesystem is untouched. -/
def fullBuild (cfg : Config) (irqRegistry : List String) (fs : FS) (build_dir : String) :
    FS × Option String :=
  match composeCore cfg irqRegistry with
  | Except.error _ => (fs, none)
  | Except.ok r =>
    ((platformBuild fs build_dir (render r)).1, some (platformBuild fs build_dir (render r)).2)

/-! ## Concrete intermediate states of the pipeline -/

/-- The CRG state produced on the static catalog. -/
def crg0 : CRGState :=
  CRGState.mk ["sys_rst", "sys_clk", "clk12", "clk48"]
    [ ("cd_sys.rst", "sys_rst"),
      ("cd_sys.clk", "clk12"),
      ("cd_usb_12.rst", "sys_rst"),
      ("cd_usb_12.clk", "clk12"),
      ("cd_usb_48.rst", "sys_rst"),
      ("cd_usb_48.clk", "clk48") ]

/-- The platform after the wishbone attachment: catalog plus the `wb`
group. -/
def platformWb : Platform :=
  Platform.mk (pinCatalog ++ [wbGetIos "wb"])

/-- Registering a sequence of pin groups, skipping failed (duplicate)
registrations; returns the final platform and the number of successful
registrations. -/
def addSeq : Platform → List PinGroup → Platform × Nat
  | p, [] => (p, 0)
  | p, g :: gs =>
    match Platform.add_group p g with
    | Except.error _ => addSeq p gs
    | Except.ok p1 => ((addSeq p1 gs).1, (addSeq p1 gs).2 + 1)

/-! ## Concrete fixtures used by the witnesses -/

/-- A default wishbone configuration (the CLI defaults of `main`). -/
def cfgWb : Config :=
  Config.mk 100000000 false false 32 false 8 8000000 "wishbone" 8 14 2048

/-- The same configuration with bus kind `"axi"`. -/
def cfgAxi : Config :=
  Config.mk 100000000 false false 32 false 8 8000000 "axi" 8 14 2048

/-- The wishbone configuration with every accepted-but-unused peripheral
flag toggled or altered. -/
def cfgWbFlags : Config :=
  Config.mk 100000000 true true 8 true 16 1000000 "wishbone" 8 14 2048

/-- An empty sample filesystem. -/
def fs0 : FS := FS.mk [] "." []

/-- A sample extra pin group. -/
def pinFoo : PinGroup := PinGroup.mk "foo" 0 [("", 1)]

/-- The SoC composed from `cfgWb` with the single interrupt source `usb`. -/
def resultWb : SoCResult :=
  SoCResult.mk
    (Platform.mk (pinCatalog ++ [wbGetIos "wb", PinGroup.mk "irq_usb" 0 [("", 1)]]))
    crg0 100000000 8 14 2048 0 ["usb"] ["wb_bus"]
    (connectToPads "wb_bus." "wb." "slave")
    [("irq_usb", "usb.ev.irq")] ["irq_usb"]

theorem crgInit_catalog : crgInit (Platform.mk pinCatalog) = Except.ok crg0 := rfl

theorem request_usb_catalog :
    Platform.request (Platform.mk pinCatalog) "usb" 0 = Except.ok "usb" := rfl

theorem wbAttach_wishbone :
    wbAttach (Platform.mk pinCatalog) "wishbone" =
      Except.ok (platformWb, ["wb_bus"], connectToPads "wb_bus." "wb." "slave") := rfl

/-! ## Helper lemmas -/

theorem string_append_cancel_left {pre a b : String} (h : pre ++ a = pre ++ b) : a = b := by
  have hd := congrArg String.data h
  simp only [String.data_append] at hd
  exact String.ext (List.append_cancel_left hd)

theorem hasIdent_append (l1 l2 : List PinGroup) (n : String) (i : Nat) :
    Platform.hasIdent (Platform.mk (l1 ++ l2)) n i =
      (Platform.hasIdent (Platform.mk l1) n i || Platform.hasIdent (Platform.mk l2) n i) := by
  simp [Platform.hasIdent, List.any_append]

theorem hasIdent_mk_pins (p : Platform) (n : String) (i : Nat) :
    Platform.hasIdent (Platform.mk p.pins) n i = Platform.hasIdent p n i := rfl

/-- Shape of any successful IRQ export: the platform only grows by new
groups, and every wiring entry connects an `irq_`-named pin to the matching
submodule's `ev.irq` wire, with the exported pin list recording targets in
order. -/
theorem exportIRQs_shape (l : List String) : ∀ (p p2 : Platform)
    (comb : List (String × String)) (pins : List String),
    exportIRQs p l = Except.ok (p2, comb, pins) →
    (∃ t, p2.pins = p.pins ++ t) ∧
    (∀ a ∈ comb, ∃ n, n ∈ l ∧ a.1 = "irq_" ++ n ∧ a.2 = n ++ ".ev.irq") := by
  induction l with
  | nil =>
    intro p p2 comb pins h
    simp only [exportIRQs, Except.ok.injEq, Prod.mk.injEq] at h
    obtain ⟨h1, h2, _⟩ := h
    exact ⟨⟨[], by simp [← h1]⟩, by simp [← h2]⟩
  | cons n rest ih =>
    intro p p2 comb pins h
    simp only [exportIRQs] at h
    by_cases hdup : Platform.hasIdent p ("irq_" ++ n) 0 = true
    · simp [Platform.add_group, hdup] at h
    · have h1 : Platform.add_group p (PinGroup.mk ("irq_" ++ n) 0 [("", 1)]) =
          Except.ok (Platform.mk (p.pins ++ [PinGroup.mk ("irq_" ++ n) 0 [("", 1)]])) := by
        rw [Platform.add_group, if_neg hdup]
      have h2 : Platform.request
          (Platform.mk (p.pins ++ [PinGroup.mk ("irq_" ++ n) 0 [("", 1)]]))
          ("irq_" ++ n) 0 = Except.ok ("irq_" ++ n) := by
        rw [Platform.request, if_pos (by simp [Platform.hasIdent, List.any_append])]
      simp only [h1, h2] at h
      cases hrec : exportIRQs (Platform.mk (p.pins ++ [PinGroup.mk ("irq_" ++ n) 0 [("", 1)]])) rest with
      | error ep => simp only [hrec] at h; cases h
      | ok res =>
        obtain ⟨p2', comb', pins'⟩ := res
        simp only [hrec, Except.ok.injEq, Prod.mk.injEq] at h
        obtain ⟨hp, hc, _⟩ := h
        obtain ⟨⟨t, ht⟩, hcomb⟩ := ih _ _ _ _ hrec
        constructor
        · exact ⟨[PinGroup.mk ("irq_" ++ n) 0 [("", 1)]] ++ t, by
            rw [← hp, ht]; simp⟩
        · intro a ha
          rw [← hc] at ha
          rcases List.mem_cons.mp ha with h1 | h1
          · exact ⟨n, List.mem_cons_self n rest, by rw [h1], by rw [h1]⟩
          · obtain ⟨m, hm, hm1, hm2⟩ := hcomb a h1
            exact ⟨m, List.mem_cons_of_mem n hm, hm1, hm2⟩

/-- A successful IRQ export over duplicate-free, fresh source names: one
single-bit pin group, one request and one wiring entry per name, in list
order. -/
theorem exportIRQs_ok (l : List String) : ∀ (p : Platform), l.Nodup →
    (∀ n ∈ l, Platform.hasIdent p ("irq_" ++ n) 0 = false) →
    exportIRQs p l =
      Except.ok (Platform.mk (p.pins ++ l.map fun n => PinGroup.mk ("irq_" ++ n) 0 [("", 1)]),
        l.map (fun n => ("irq_" ++ n, n ++ ".ev.irq")),
        l.map (fun n => "irq_" ++ n)) := by
  induction l with
  | nil => intro p _ _; simp [exportIRQs]
  | cons n rest ih =>
    intro p hnd hfresh
    have hn : Platform.hasIdent p ("irq_" ++ n) 0 = false :=
      hfresh n (List.mem_cons_self n rest)
    have h1 : Platform.add_group p (PinGroup.mk ("irq_" ++ n) 0 [("", 1)]) =
        Except.ok (Platform.mk (p.pins ++ [PinGroup.mk ("irq_" ++ n) 0 [("", 1)]])) := by
      rw [Platform.add_group, if_neg (by simp [hn])]
    have h2 : Platform.request
        (Platform.mk (p.pins ++ [PinGroup.mk ("irq_" ++ n) 0 [("", 1)]]))
        ("irq_" ++ n) 0 = Except.ok ("irq_" ++ n) := by
      rw [Platform.request, if_pos (by simp [Platform.hasIdent, List.any_append])]
    have h3 := ih (Platform.mk (p.pins ++ [PinGroup.mk ("irq_" ++ n) 0 [("", 1)]]))
      (List.Nodup.of_cons hnd) (by
        intro m hm
        have hne : ("irq_" ++ n == "irq_" ++ m) = false := by
          apply beq_eq_false_iff_ne.mpr
          intro hcontra
          exact (List.nodup_cons.mp hnd).1 (string_append_cancel_left hcontra ▸ hm)
        have hfm := hfresh m (List.mem_cons_of_mem n hm)
        unfold Platform.hasIdent at hfm ⊢
        simp only [List.any_append, hfm, List.any_cons, List.any_nil, hne]
        simp)
    simp only [exportIRQs, h1, h2, h3]
    simp

/-- Inversion of a successful composition: the bus kind must have been
`"wishbone"`, the pipeline went through the concrete CRG state and the
wishbone attachment, and the result's fields are exactly the ones the
pipeline constructs, with the IRQ section coming from `exportIRQs` over the
sorted registry. -/
theorem composeCore_ok_inv (cfg : Config) (reg : List String) (r : SoCResult)
    (h : composeCore cfg reg = Except.ok r) :
    cfg.bus = "wishbone" ∧
    ∃ p2 irqComb irqPins,
      exportIRQs platformWb (List.insertionSort (fun a b => a ≤ b) reg) =
        Except.ok (p2, irqComb, irqPins) ∧
      r = SoCResult.mk p2 crg0 cfg.sys_clk_freq cfg.csr_data_width
        cfg.csr_address_width cfg.csr_paging 0 ["usb"] ["wb_bus"]
        (connectToPads "wb_bus." "wb." "slave") irqComb irqPins := by
  have hwb : socMiniCheckBus "wishbone" = Except.ok () := rfl
  rw [composeCore] at h
  simp only [crgInit_catalog] at h
  by_cases hbus : cfg.bus = "wishbone"
  · rw [hbus] at h
    simp only [hwb, request_usb_catalog, wbAttach_wishbone] at h
    cases hrec : exportIRQs platformWb (List.insertionSort (fun a b => a ≤ b) reg) with
    | error ep => simp only [hrec] at h; cases h
    | ok res =>
      obtain ⟨p2, irqComb, irqPins⟩ := res
      simp only [hrec, Except.ok.injEq] at h
      exact ⟨hbus, p2, irqComb, irqPins, rfl, h.symm⟩
  · have hax : socMiniCheckBus cfg.bus = Except.error GenError.UnsupportedBus := by
      rw [socMiniCheckBus, if_neg (by simp [hbus])]
    simp only [hax] at h
    cases h

/-- Sorting with `insertionSort` by the linear order on strings is invariant
under permutation of the input: any two orders of the same registry contents
sort to the same list. -/
theorem insertionSort_eq_of_perm (l1 l2 : List String) (h : l1.Perm l2) :
    List.insertionSort (fun a b => a ≤ b) l1 = List.insertionSort (fun a b => a ≤ b) l2 :=
  List.eq_of_perm_of_sorted
    (((List.perm_insertionSort _ l1).trans h).trans (List.perm_insertionSort _ l2).symm)
    (List.sorted_insertionSort _ l1) (List.sorted_insertionSort _ l2)

theorem irq_ne_sys_clk (n : String) : "irq_" ++ n ≠ "sys_clk" := by
  intro h
  have hd := congrArg String.data h
  simp only [String.data_append] at hd
  simp at hd

theorem evirq_ne_sys_clk (n : String) : n ++ ".ev.irq" ≠ "sys_clk" := by
  intro h
  have hd := congrArg String.data h
  simp only [String.data_append] at hd
  have hlen := congrArg List.length hd
  simp only [List.length_append, List.length_cons, List.length_nil] at hlen
  have hnil : n.data = [] := List.eq_nil_of_length_eq_zero (by omega)
  rw [hnil] at hd
  simp at hd

theorem addSeq_length (gs : List PinGroup) : ∀ p : Platform,
    (addSeq p gs).1.pins.length = (addSeq p gs).2 + p.pins.length := by
  induction gs with
  | nil => intro p; simp [addSeq]
  | cons g gs ih =>
    intro p
    rw [addSeq]
    cases hk : Platform.add_group p g with
    | error e => simp only [hk]; exact ih p
    | ok p1 =>
      simp only [hk]
      have hlen : p1.pins.length = p.pins.length + 1 := by
        rw [Platform.add_group] at hk
        by_cases hdup : Platform.hasIdent p g.name g.index = true
        · rw [if_pos hdup] at hk; cases hk
        · rw [if_neg hdup] at hk
          injection hk with h1
          rw [← h1]; simp
      rw [ih p1, hlen]
      omega

/-! ## Claim theorems -/

/-- Claim C1: for every configuration with `bus = "axi"`, composition fails
hard with `UnsupportedBus` (no silent fallback to wishbone); the platform at
the point of failure holds exactly the static catalog (no partial pin
registrations) and the build driver produces no artifact, leaving the
filesystem untouched. -/
theorem axi_fails_closed (cfg : Config) (reg : List String) (fs : FS) (d : String)
    (h : cfg.bus = "axi") :
    composeCore cfg reg = Except.error (GenError.UnsupportedBus, Platform.mk pinCatalog) ∧
    (Platform.mk pinCatalog).pins = pinCatalog ∧
    fullBuild cfg reg fs d = (fs, none) := by
  have hax : socMiniCheckBus cfg.bus = Except.error GenError.UnsupportedBus := by
    rw [socMiniCheckBus, if_neg (by simp [h])]
  have hcomp : composeCore cfg reg =
      Except.error (GenError.UnsupportedBus, Platform.mk pinCatalog) := by
    rw [composeCore]
    simp only [crgInit_catalog, hax]
  exact ⟨hcomp, rfl, by simp only [fullBuild, hcomp]⟩

theorem axi_fails_closed_witness :
    cfgAxi.bus = "axi" ∧
    (composeCore cfgAxi ["usb"] =
        Except.error (GenError.UnsupportedBus, Platform.mk pinCatalog) ∧
      (Platform.mk pinCatalog).pins = pinCatalog ∧
      fullBuild cfgAxi ["usb"] fs0 "build" = (fs0, none)) :=
  ⟨rfl, axi_fails_closed cfgAxi ["usb"] fs0 "build" rfl⟩

/-- Claim C3: the peripheral flags `with_pwm`, `with_gpio`, `gpio_width`,
`with_spi_master`, `spi_master_data_width`, `spi_master_clk_freq` are
accepted by the constructor but instantiate nothing: two configurations
that agree on every other field compose to identical results. -/
theorem unused_flags_noninterference (c1 c2 : Config) (reg : List String)
    (hfreq : c1.sys_clk_freq = c2.sys_clk_freq)
    (hbus : c1.bus = c2.bus)
    (hdw : c1.csr_data_width = c2.csr_data_width)
    (haw : c1.csr_address_width = c2.csr_address_width)
    (hpg : c1.csr_paging = c2.csr_paging) :
    composeCore c1 reg = composeCore c2 reg := by
  simp only [composeCore, hfreq, hbus, hdw, haw, hpg]

theorem unused_flags_noninterference_witness :
    cfgWb.sys_clk_freq = cfgWbFlags.sys_clk_freq ∧
    cfgWb.bus = cfgWbFlags.bus ∧
    cfgWb.csr_data_width = cfgWbFlags.csr_data_width ∧
    cfgWb.csr_address_width = cfgWbFlags.csr_address_width ∧
    cfgWb.csr_paging = cfgWbFlags.csr_paging ∧
    composeCore cfgWb ["usb"] = composeCore cfgWbFlags ["usb"] :=
  ⟨rfl, rfl, rfl, rfl, rfl,
    unused_flags_noninterference cfgWb cfgWbFlags ["usb"] rfl rfl rfl rfl rfl⟩

/-- Claim C7: the commit operation creates the output directory if absent
(unchanged if present), changes the working directory to it, and writes the
artifact under the fixed name `litex_core.v`, so the artifact path is a
function of the output directory alone. -/
theorem commit_contract (fs : FS) (d content : String) :
    (platformBuild fs d content).2 = d ++ "/litex_core.v" ∧
    (platformBuild fs d content).1.cwd = d ∧
    d ∈ (platformBuild fs d content).1.dirs ∧
    (d ∈ fs.dirs → (platformBuild fs d content).1.dirs = fs.dirs) ∧
    (d ∉ fs.dirs → (platformBuild fs d content).1.dirs = fs.dirs ++ [d]) ∧
    (platformBuild fs d content).1.files =
      fs.files ++ [(d ++ "/litex_core.v", content)] := by
  by_cases hd : d ∈ fs.dirs <;>
    simp [platformBuild, writeRel, chdir, makedirs, hd, String.append_assoc]

theorem commit_contract_witness :
    (platformBuild fs0 "out" "top").2 = "out" ++ "/litex_core.v" ∧
    (platformBuild fs0 "out" "top").1.cwd = "out" ∧
    "out" ∈ (platformBuild fs0 "out" "top").1.dirs ∧
    ("out" ∈ fs0.dirs → (platformBuild fs0 "out" "top").1.dirs = fs0.dirs) ∧
    ("out" ∉ fs0.dirs → (platformBuild fs0 "out" "top").1.dirs = fs0.dirs ++ ["out"]) ∧
    (platformBuild fs0 "out" "top").1.files =
      fs0.files ++ [("out" ++ "/litex_core.v", "top")] :=
  commit_contract fs0 "out" "top"

/-- Claim C8: in every composed SoC the CSR region's base address in the
global address map is fixed at offset 0, whatever the configuration. -/
theorem csr_base_fixed_zero (cfg : Config) (reg : List String) (r : SoCResult)
    (h : composeCore cfg reg = Except.ok r) : r.mem_map_csr = 0 := by
  obtain ⟨-, p2, irqComb, irqPins, -, hr⟩ := composeCore_ok_inv cfg reg r h
  subst hr
  rfl

theorem csr_base_fixed_zero_witness :
    composeCore cfgWb ["usb"] = Except.ok resultWb ∧ resultWb.mem_map_csr = 0 :=
  ⟨rfl, csr_base_fixed_zero cfgWb ["usb"] resultWb rfl⟩

/-- Claim C9: composition is deterministic: it is a function of the
configuration and the registry contents, independent of the order in which
the registry was populated, so two runs with identical configuration
produce identical results and byte-identical artifacts. -/
theorem rerun_deterministic (cfg : Config) (reg1 reg2 : List String)
    (fs : FS) (d : String) (hperm : reg1.Perm reg2) :
    composeCore cfg reg1 = composeCore cfg reg2 ∧
    fullBuild cfg reg1 fs d = fullBuild cfg reg2 fs d := by
  have hs := insertionSort_eq_of_perm reg1 reg2 hperm
  have hc : composeCore cfg reg1 = composeCore cfg reg2 := by
    simp only [composeCore, hs]
  exact ⟨hc, by simp only [fullBuild, hc]⟩

theorem rerun_deterministic_witness :
    (["usb", "timer0"] : List String).Perm ["timer0", "usb"] ∧
    (composeCore cfgWb ["usb", "timer0"] = composeCore cfgWb ["timer0", "usb"] ∧
      fullBuild cfgWb ["usb", "timer0"] fs0 "build" =
        fullBuild cfgWb ["timer0", "usb"] fs0 "build") :=
  ⟨List.Perm.swap "timer0" "usb" [],
    rerun_deterministic cfgWb ["usb", "timer0"] ["timer0", "usb"] fs0 "build"
      (List.Perm.swap "timer0" "usb" [])⟩

/-- Claim C2: the interrupt-export step registers and wires exactly one
single-bit pin group `"irq_" + name` per source, exporting the pins in the
ascending lexicographic order of the source names, independent of the order
in which the sources entered the registry. -/
theorem irq_export_sorted_deterministic (p : Platform) (reg : List String)
    (hnd : reg.Nodup)
    (hfresh : ∀ n ∈ reg, Platform.hasIdent p ("irq_" ++ n) 0 = false) :
    (∃ ns : List String, ns.Perm reg ∧ List.Sorted (fun a b => a ≤ b) ns ∧
      exportIRQs p (List.insertionSort (fun a b => a ≤ b) reg) =
        Except.ok
          (Platform.mk (p.pins ++ ns.map fun n => PinGroup.mk ("irq_" ++ n) 0 [("", 1)]),
            ns.map (fun n => ("irq_" ++ n, n ++ ".ev.irq")),
            ns.map (fun n => "irq_" ++ n))) ∧
    (∀ reg2 : List String, reg2.Perm reg →
      exportIRQs p (List.insertionSort (fun a b => a ≤ b) reg2) =
        exportIRQs p (List.insertionSort (fun a b => a ≤ b) reg)) := by
  constructor
  · refine ⟨List.insertionSort (fun a b => a ≤ b) reg, List.perm_insertionSort _ reg,
      List.sorted_insertionSort _ reg, ?_⟩
    apply exportIRQs_ok
    · exact (List.perm_insertionSort _ reg).nodup_iff.mpr hnd
    · intro n hn
      exact hfresh n ((List.mem_insertionSort _).mp hn)
  · intro reg2 h2
    rw [insertionSort_eq_of_perm reg2 reg h2]

theorem irq_export_sorted_deterministic_witness :
    (["usb", "timer0", "gpio"] : List String).Nodup ∧
    (∀ n ∈ (["usb", "timer0", "gpio"] : List String),
      Platform.hasIdent (Platform.mk pinCatalog) ("irq_" ++ n) 0 = false) ∧
    ((∃ ns : List String, ns.Perm ["usb", "timer0", "gpio"] ∧
        List.Sorted (fun a b => a ≤ b) ns ∧
        exportIRQs (Platform.mk pinCatalog)
            (List.insertionSort (fun a b => a ≤ b) ["usb", "timer0", "gpio"]) =
          Except.ok
            (Platform.mk (pinCatalog ++
                ns.map fun n => PinGroup.mk ("irq_" ++ n) 0 [("", 1)]),
              ns.map (fun n => ("irq_" ++ n, n ++ ".ev.irq")),
              ns.map (fun n => "irq_" ++ n))) ∧
      (∀ reg2 : List String, reg2.Perm ["usb", "timer0", "gpio"] →
        exportIRQs (Platform.mk pinCatalog)
            (List.insertionSort (fun a b => a ≤ b) reg2) =
          exportIRQs (Platform.mk pinCatalog)
            (List.insertionSort (fun a b => a ≤ b) ["usb", "timer0", "gpio"]))) :=
  ⟨by decide, by decide,
    irq_export_sorted_deterministic (Platform.mk pinCatalog) ["usb", "timer0", "gpio"]
      (by decide) (by decide)⟩

/-- Claim C4: after CRG construction, in every successful build the
`usb_12` and `sys` clock domains are wired to the same reset wire (the
`sys_rst` pin) and the same clock wire (the `clk12` pin), while `usb_48` is
wired to that same reset wire but to the distinct clock wire `clk48`. -/
theorem crg_clock_wiring (cfg : Config) (reg : List String) (r : SoCResult)
    (h : composeCore cfg reg = Except.ok r) :
    r.crg.rstOf "cd_sys" = some "sys_rst" ∧
    r.crg.rstOf "cd_usb_12" = some "sys_rst" ∧
    r.crg.rstOf "cd_usb_48" = some "sys_rst" ∧
    r.crg.clkOf "cd_sys" = some "clk12" ∧
    r.crg.clkOf "cd_usb_12" = some "clk12" ∧
    r.crg.clkOf "cd_usb_48" = some "clk48" ∧
    r.crg.clkOf "cd_usb_48" ≠ r.crg.clkOf "cd_sys" := by
  obtain ⟨-, p2, irqComb, irqPins, -, hr⟩ := composeCore_ok_inv cfg reg r h
  have hc : r.crg = crg0 := by rw [hr]
  rw [hc]
  decide

theorem crg_clock_wiring_witness :
    composeCore cfgWb ["usb"] = Except.ok resultWb ∧
    (resultWb.crg.rstOf "cd_sys" = some "sys_rst" ∧
      resultWb.crg.rstOf "cd_usb_12" = some "sys_rst" ∧
      resultWb.crg.rstOf "cd_usb_48" = some "sys_rst" ∧
      resultWb.crg.clkOf "cd_sys" = some "clk12" ∧
      resultWb.crg.clkOf "cd_usb_12" = some "clk12" ∧
      resultWb.crg.clkOf "cd_usb_48" = some "clk48" ∧
      resultWb.crg.clkOf "cd_usb_48" ≠ resultWb.crg.clkOf "cd_sys") :=
  ⟨rfl, crg_clock_wiring cfgWb ["usb"] resultWb rfl⟩

/-- Claim C5: registering a pin group whose (name, index) identity is
already present fails with `DuplicatePin`; after N successful registrations
on the catalog platform the resolvable set has exactly N + |catalog|
entries, each of which is requestable. -/
theorem pin_uniqueness_and_count :
    (∀ (p : Platform) (g : PinGroup) (p1 : Platform) (g2 : PinGroup),
      Platform.add_group p g = Except.ok p1 → g2.name = g.name → g2.index = g.index →
      Platform.add_group p1 g2 = Except.error GenError.DuplicatePin) ∧
    (∀ gs : List PinGroup,
      (addSeq (Platform.mk pinCatalog) gs).1.pins.length =
        (addSeq (Platform.mk pinCatalog) gs).2 + pinCatalog.length) ∧
    (∀ (p : Platform) (g : PinGroup), g ∈ p.pins →
      Platform.request p g.name g.index = Except.ok g.name) := by
  refine ⟨?_, ?_, ?_⟩
  · intro p g p1 g2 hok hname hidx
    rw [Platform.add_group] at hok
    by_cases hdup : Platform.hasIdent p g.name g.index = true
    · rw [if_pos hdup] at hok; cases hok
    · rw [if_neg hdup] at hok
      injection hok with h1
      have hcond : Platform.hasIdent p1 g2.name g2.index = true := by
        rw [← h1]
        unfold Platform.hasIdent
        simp [List.any_append, hname, hidx]
      rw [Platform.add_group, if_pos hcond]
  · intro gs
    exact addSeq_length gs (Platform.mk pinCatalog)
  · intro p g hg
    have hcond : Platform.hasIdent p g.name g.index = true := by
      unfold Platform.hasIdent
      rw [List.any_eq_true]
      exact ⟨g, hg, by simp⟩
    rw [Platform.request, if_pos hcond]

theorem pin_uniqueness_and_count_witness :
    Platform.add_group (Platform.mk pinCatalog) pinFoo =
      Except.ok (Platform.mk (pinCatalog ++ [pinFoo])) ∧
    Platform.add_group (Platform.mk (pinCatalog ++ [pinFoo])) pinFoo =
      Except.error GenError.DuplicatePin ∧
    (addSeq (Platform.mk pinCatalog) [pinFoo, pinFoo]).1.pins.length =
      (addSeq (Platform.mk pinCatalog) [pinFoo, pinFoo]).2 + pinCatalog.length ∧
    Platform.request (Platform.mk (pinCatalog ++ [pinFoo])) pinFoo.name pinFoo.index =
      Except.ok pinFoo.name :=
  ⟨rfl,
    pin_uniqueness_and_count.1 (Platform.mk pinCatalog) pinFoo
      (Platform.mk (pinCatalog ++ [pinFoo])) pinFoo rfl rfl rfl,
    pin_uniqueness_and_count.2.1 [pinFoo, pinFoo],
    pin_uniqueness_and_count.2.2 (Platform.mk (pinCatalog ++ [pinFoo])) pinFoo
      (by decide)⟩

/-- Claim C6: whenever the configured bus is `"wishbone"`, composition
registers a bus-master endpoint with the fabric, registers the `"wb"` pin
group on the platform, and wires the master's signals to the pads in slave
orientation: every master-driven (`mtos`) signal surfaces as an input pin
and every master-read (`stom`) signal as an output pin. -/
theorem wishbone_slave_polarity (cfg : Config) (reg : List String) (r : SoCResult)
    (_hbus : cfg.bus = "wishbone") (h : composeCore cfg reg = Except.ok r) :
    r.busMasters = ["wb_bus"] ∧
    wbGetIos "wb" ∈ r.platform.pins ∧
    r.wbComb = connectToPads "wb_bus." "wb." "slave" ∧
    (∀ s ∈ wishboneLayout,
      (s.2.2 = WbDir.mtos →
        isInputPin r.wbComb ("wb." ++ s.1) = true ∧
        isOutputPin r.wbComb ("wb." ++ s.1) = false) ∧
      (s.2.2 = WbDir.stom →
        isOutputPin r.wbComb ("wb." ++ s.1) = true ∧
        isInputPin r.wbComb ("wb." ++ s.1) = false)) := by
  obtain ⟨-, p2, irqComb, irqPins, hexp, hr⟩ := composeCore_ok_inv cfg reg r h
  have hb : r.busMasters = ["wb_bus"] := by rw [hr]
  have hw : r.wbComb = connectToPads "wb_bus." "wb." "slave" := by rw [hr]
  have hp : r.platform = p2 := by rw [hr]
  rw [hb, hw, hp]
  refine ⟨rfl, ?_, rfl, by decide⟩
  obtain ⟨⟨t, ht⟩, -⟩ := exportIRQs_shape _ _ _ _ _ hexp
  rw [ht]
  simp [platformWb]

theorem wishbone_slave_polarity_witness :
    cfgWb.bus = "wishbone" ∧
    composeCore cfgWb ["usb"] = Except.ok resultWb ∧
    (resultWb.busMasters = ["wb_bus"] ∧
      wbGetIos "wb" ∈ resultWb.platform.pins ∧
      resultWb.wbComb = connectToPads "wb_bus." "wb." "slave" ∧
      (∀ s ∈ wishboneLayout,
        (s.2.2 = WbDir.mtos →
          isInputPin resultWb.wbComb ("wb." ++ s.1) = true ∧
          isOutputPin resultWb.wbComb ("wb." ++ s.1) = false) ∧
        (s.2.2 = WbDir.stom →
          isOutputPin resultWb.wbComb ("wb." ++ s.1) = true ∧
          isInputPin resultWb.wbComb ("wb." ++ s.1) = false))) :=
  ⟨rfl, rfl, wishbone_slave_polarity cfgWb ["usb"] resultWb rfl rfl⟩

/-- Claim C10: the CRG requests the `sys_clk` pin from the platform but
never connects it: the `sys` domain clock is wired to the `clk12` pin, and
no combinational assignment of the composed design mentions the `sys_clk`
wire, so the catalog pin is left unconnected in the emitted design. -/
theorem sys_clk_requested_unused (cfg : Config) (reg : List String) (r : SoCResult)
    (h : composeCore cfg reg = Except.ok r) :
    "sys_clk" ∈ r.crg.requested ∧
    r.crg.clkOf "cd_sys" = some "clk12" ∧
    (∀ a ∈ r.crg.comb ++ r.wbComb ++ r.irqComb, a.1 ≠ "sys_clk" ∧ a.2 ≠ "sys_clk") := by
  obtain ⟨-, p2, irqComb, irqPins, hexp, hr⟩ := composeCore_ok_inv cfg reg r h
  have hc : r.crg = crg0 := by rw [hr]
  have hw : r.wbComb = connectToPads "wb_bus." "wb." "slave" := by rw [hr]
  have hi : r.irqComb = irqComb := by rw [hr]
  rw [hc, hw, hi]
  refine ⟨by decide, by decide, ?_⟩
  have hallc : ∀ x ∈ crg0.comb, x.1 ≠ "sys_clk" ∧ x.2 ≠ "sys_clk" := by decide
  have hallw : ∀ x ∈ connectToPads "wb_bus." "wb." "slave",
      x.1 ≠ "sys_clk" ∧ x.2 ≠ "sys_clk" := by decide
  intro a ha
  rcases List.mem_append.mp ha with ha1 | hirq
  · rcases List.mem_append.mp ha1 with hcrg | hwb
    · exact hallc a hcrg
    · exact hallw a hwb
  · obtain ⟨-, hcomb⟩ := exportIRQs_shape _ _ _ _ _ hexp
    obtain ⟨n, -, h1, h2⟩ := hcomb a hirq
    exact ⟨h1 ▸ irq_ne_sys_clk n, h2 ▸ evirq_ne_sys_clk n⟩

theorem sys_clk_requested_unused_witness :
    composeCore cfgWb ["usb"] = Except.ok resultWb ∧
    ("sys_clk" ∈ resultWb.crg.requested ∧
      resultWb.crg.clkOf "cd_sys" = some "clk12" ∧
      (∀ a ∈ resultWb.crg.comb ++ resultWb.wbComb ++ resultWb.irqComb,
        a.1 ≠ "sys_clk" ∧ a.2 ≠ "sys_clk")) :=
  ⟨rfl, sys_clk_requested_unused cfgWb ["usb"] resultWb rfl⟩

end LitexGen
